import Mathlib

/-!
Shallow embedding of the MCP chatbot client (`src/client/mcp_chatbot.py`):
the capability-registry build (`load_mcp_components`, `connect_to_server`,
`connect_to_servers`), the conversation loop (`process_query`), resource
lookup (`get_resource`) and prompt execution (`execute_prompt`), together
with theorems settling the specification claims about them.

Machine conventions of the embedding:
* a Python `ClientSession` object is represented by an opaque numeric
  identifier `Sess`;
* `self.sessions` (a Python `dict`) is an insertion-ordered association
  list with Python `dict` update semantics (`dictInsert`, `dictGet`);
* code that can raise is modelled with `Except String`; an uncaught
  exception is a propagated `Except.error` / `raised` outcome;
* the remote provider, the model backend, `call_tool`, `get_prompt` and
  `read_resource` are parameters (arbitrary functions), so theorems
  quantify over every possible remote behaviour;
* `print` calls are recorded as events in an observable trace;
* Python appends the same `assistant_content` list object to `messages`
  on every `tool_use` item of a round, so each such assistant turn ends
  up holding the round's final content; the embedding models this by
  recording reference slots (`RoundMsg.asstRef`) and rendering them
  against the round's final `assistant_content` when the round ends.
-/

/-- Session identifier: one per initialized `ClientSession` object. -/
abbrev Sess := Nat

/-- Lookup in an insertion-ordered association list, mirroring Python
`dict.get`: the first (and only) binding of the key is returned. -/
def dictGet : List (String × Sess) → String → Option Sess
  | [], _ => none
  | (a, v) :: rest, k => if a = k then some v else dictGet rest k

/-- Update of an insertion-ordered association list, mirroring Python
`d[k] = v`: an existing key keeps its position and receives the new value,
a new key is appended at the end. -/
def dictInsert : List (String × Sess) → String → Sess → List (String × Sess)
  | [], k, v => [(k, v)]
  | (a, w) :: rest, k, v =>
      if a = k then (a, v) :: rest else (a, w) :: dictInsert rest k v

/-- A tool declaration as returned by `session.list_tools()`; the
descriptor dict built in `load_mcp_components` carries the same three
fields, so the same structure serves as the flattened-list entry. -/
structure ToolDecl where
  name : String
  description : String
  inputSchema : String
deriving DecidableEq

/-- A prompt declaration as returned by `session.list_prompts()`; the
`arguments` field keeps the argument names. -/
structure PromptDecl where
  name : String
  description : String
  arguments : List String
deriving DecidableEq

/-- The chatbot's registry state: the shared `self.sessions` routing dict
plus the two flattened descriptor lists `self.available_tools` and
`self.available_prompts`. -/
structure RegistryState where
  sessions : List (String × Sess)
  available_tools : List ToolDecl
  available_prompts : List PromptDecl
deriving DecidableEq

/-- The registry state right after `__init__`. -/
def initState : RegistryState := ⟨[], [], []⟩

/-- The three listing results a connected provider session delivers;
`Except.error` models the listing call raising an exception. Resources
are listed by their URI string (`str(resource.uri)`). -/
structure ProviderLists where
  tools : Except String (List ToolDecl)
  prompts : Except String (List PromptDecl)
  resources : Except String (List String)

/-- Outcome of transport open, `ClientSession` creation and `initialize()`
for one configured provider: either some step raised, or a session exists
and the three listing calls behave as recorded in `lists`. -/
inductive ProviderConn where
  | connectFail
  | ok (sess : Sess) (lists : ProviderLists)

/-- The `for tool in tools_response.tools` loop of `load_mcp_components`:
route `tool.name` to the session and append the descriptor. -/
def registerTools (s : Sess) : RegistryState → List ToolDecl → RegistryState
  | st, [] => st
  | st, t :: ts =>
      registerTools s
        { st with
            sessions := dictInsert st.sessions t.name s,
            available_tools := st.available_tools ++ [t] } ts

/-- The `for prompt in prompts_response.prompts` loop of
`load_mcp_components`: route `prompt.name` to the session and append the
descriptor. An empty list makes the guarding `if` falsy, which registers
nothing, exactly like this function on `[]`. -/
def registerPrompts (s : Sess) : RegistryState → List PromptDecl → RegistryState
  | st, [] => st
  | st, p :: ps =>
      registerPrompts s
        { st with
            sessions := dictInsert st.sessions p.name s,
            available_prompts := st.available_prompts ++ [p] } ps

/-- The `for resource in resources_response.resources` loop of
`load_mcp_components`: route the URI string to the session. -/
def registerResources (s : Sess) : RegistryState → List String → RegistryState
  | st, [] => st
  | st, u :: us =>
      registerResources s { st with sessions := dictInsert st.sessions u s } us

/-- `McpChatBot.load_mcp_components`: list tools, prompts and resources of
one session and register them. The whole body is wrapped in
`try/except Exception`, so a failing listing call stops the sequence and
keeps everything registered before the failure. -/
def load_mcp_components (st : RegistryState) (s : Sess) (pl : ProviderLists) :
    RegistryState :=
  match pl.tools with
  | Except.error _ => st
  | Except.ok ts =>
      let st1 := registerTools s st ts
      match pl.prompts with
      | Except.error _ => st1
      | Except.ok ps =>
          let st2 := registerPrompts s st1 ps
          match pl.resources with
          | Except.error _ => st2
          | Except.ok rs => registerResources s st2 rs

/-- `McpChatBot.connect_to_server`: transport open, session creation and
`initialize()` are wrapped in `try/except Exception`, so a connection
failure leaves the registry untouched and the caller continues. -/
def connect_to_server (st : RegistryState) : ProviderConn → RegistryState
  | ProviderConn.connectFail => st
  | ProviderConn.ok s pl => load_mcp_components st s pl

/-- `McpChatBot.connect_to_servers`: iterate the configured providers in
configuration order, connecting each in turn. -/
def connect_to_servers (st : RegistryState) :
    List (String × ProviderConn) → RegistryState
  | [] => st
  | (_, c) :: rest => connect_to_servers (connect_to_server st c) rest

example :
    (connect_to_server initState
      (ProviderConn.ok 7 ⟨Except.ok [⟨"a", "d", "s"⟩], Except.ok [], Except.ok []⟩)).sessions
      = [("a", 7)] := by decide

/-- One item of a model-backend response: `content.type == "text"` or
`content.type == "tool_use"` (with `content.id`, `content.name`,
`content.input`). -/
inductive RespItem where
  | text (s : String)
  | toolUse (tid : String) (nm : String) (inp : String)
deriving DecidableEq

/-- The `content` field of one entry of `messages`: the initial user query
is a plain string, an assistant turn carries the accumulated response
items, a tool-result turn carries `tool_use_id`/`content` pairs. -/
inductive MsgContent where
  | str (s : String)
  | items (l : List RespItem)
  | results (l : List (String × String))
deriving DecidableEq

/-- One entry of the `messages` list of `process_query`. -/
structure ChatMsg where
  role : String
  content : MsgContent
deriving DecidableEq

/-- Observable actions of one `process_query` run, in order: each
`self.anthropic.messages.create` call, each `print(content.text)`, each
`session.call_tool` actually issued, and the printed not-found notice. -/
inductive Event where
  | backendRequest
  | printedText (s : String)
  | toolInvoked (s : Sess) (nm : String) (inp : String)
  | printedToolNotFound (nm : String)
deriving DecidableEq

/-- The model backend: from the accumulated messages to the ordered
content items of the next response. Quantifying over `Backend` quantifies
over every possible sequence of model responses. -/
abbrev Backend := List ChatMsg → List RespItem

/-- Remote `session.call_tool`: `Except.error` models the call raising. -/
abbrev CallTool := Sess → String → String → Except String String

/-- How one `process_query` invocation ends: the `while` loop broke out
normally (`done`, with the final messages), an uncaught exception from
`call_tool` propagated out (`raised`), or the modelling fuel ran out
(`fuelOut`, an artifact of embedding the unbounded `while True`). -/
inductive QueryOutcome where
  | done (msgs : List ChatMsg)
  | raised (e : String)
  | fuelOut (msgs : List ChatMsg)
deriving DecidableEq

/-- One entry appended to `messages` during a content round: either a
reference to the round's shared `assistant_content` list (Python appends
the same list object each time, so every such turn shows the FINAL
content of the round once it ends), or a completed tool-result turn. -/
inductive RoundMsg where
  | asstRef
  | toolResultMsg (tid : String) (r : String)
deriving DecidableEq

/-- Realize one appended round entry against the round's final
`assistant_content`, reflecting Python's list aliasing. -/
def renderRoundMsg (ac : List RespItem) : RoundMsg → ChatMsg
  | RoundMsg.asstRef => ⟨"assistant", MsgContent.items ac⟩
  | RoundMsg.toolResultMsg tid r => ⟨"user", MsgContent.results [(tid, r)]⟩

/-- Result of the `for content in response.content` loop of one round:
the `has_tool_use` flag, the final `assistant_content`, the entries
appended to `messages` (to be rendered against the final
`assistant_content`), the emitted events, and the exception that aborted
the loop, if any. -/
structure ItemsResult where
  has_tool_use : Bool
  assistant_content : List RespItem
  roundMsgs : List RoundMsg
  events : List Event
  raisedExc : Option String
deriving DecidableEq

/-- Result of a whole `process_query` run: outcome plus event trace. -/
structure LoopResult where
  outcome : QueryOutcome
  events : List Event
deriving DecidableEq

/-- The `for content in response.content` body of `process_query`:
text items are printed and accumulated into `assistant_content`;
a `tool_use` item sets `has_tool_use`, extends `assistant_content`,
appends the assistant turn (a reference to `assistant_content`) to
`messages`, and then resolves the name in `self.sessions` — an unresolved
name prints the notice and `break`s, a resolved name is invoked via
`call_tool`, whose raising aborts the whole `process_query` (there is no
`try` around it), and whose result is appended as a correlated
`tool_result` user turn. -/
def processItems (sessions : List (String × Sess)) (callTool : CallTool) :
    List RespItem → List RespItem → Bool → List RoundMsg → List Event → ItemsResult
  | [], ac, htu, rms, evs => ⟨htu, ac, rms, evs, none⟩
  | RespItem.text s :: rest, ac, htu, rms, evs =>
      processItems sessions callTool rest (ac ++ [RespItem.text s]) htu rms
        (evs ++ [Event.printedText s])
  | RespItem.toolUse tid nm inp :: rest, ac, _, rms, evs =>
      let ac2 := ac ++ [RespItem.toolUse tid nm inp]
      let rms2 := rms ++ [RoundMsg.asstRef]
      match dictGet sessions nm with
      | none => ⟨true, ac2, rms2, evs ++ [Event.printedToolNotFound nm], none⟩
      | some s =>
          match callTool s nm inp with
          | Except.error e =>
              ⟨true, ac2, rms2, evs ++ [Event.toolInvoked s nm inp], some e⟩
          | Except.ok r =>
              processItems sessions callTool rest ac2 true
                (rms2 ++ [RoundMsg.toolResultMsg tid r])
                (evs ++ [Event.toolInvoked s nm inp])

/-- The `while True` loop of `process_query`: request a model response for
the accumulated messages, process its content items (rendering the turns
appended during the round against the round's final `assistant_content`,
as Python's aliasing does), and loop again iff a `tool_use` item was seen
and no exception escaped. `fuel` bounds the number of backend rounds the
embedding unfolds. -/
def processQueryLoop (backend : Backend) (sessions : List (String × Sess))
    (callTool : CallTool) : Nat → List ChatMsg → LoopResult
  | 0, msgs => ⟨QueryOutcome.fuelOut msgs, []⟩
  | fuel + 1, msgs =>
      match processItems sessions callTool (backend msgs) [] false [] [] with
      | ⟨_, _, _, evs, some e⟩ =>
          ⟨QueryOutcome.raised e, Event.backendRequest :: evs⟩
      | ⟨true, ac, rms, evs, none⟩ =>
          let nxt := processQueryLoop backend sessions callTool fuel
            (msgs ++ rms.map (renderRoundMsg ac))
          ⟨nxt.outcome, Event.backendRequest :: evs ++ nxt.events⟩
      | ⟨false, ac, rms, evs, none⟩ =>
          ⟨QueryOutcome.done (msgs ++ rms.map (renderRoundMsg ac)),
            Event.backendRequest :: evs⟩

/-- `McpChatBot.process_query`: run the conversation loop on the fresh
message list `[{"role": "user", "content": query}]`. -/
def process_query (backend : Backend) (sessions : List (String × Sess))
    (callTool : CallTool) (fuel : Nat) (query : String) : LoopResult :=
  processQueryLoop backend sessions callTool fuel [⟨"user", MsgContent.str query⟩]

/-- Python `list.startswith` on characters: does the second list lead the
first one? -/
def chars_startswith : List Char → List Char → Bool
  | _, [] => true
  | [], _ :: _ => false
  | c :: cs, d :: ds => c == d && chars_startswith cs ds

/-- Python `str.startswith`, as used by `get_resource` on URIs. -/
def str_startswith (s p : String) : Bool := chars_startswith s.data p.data

/-- The fallback loop of `get_resource`: `for uri, sess in
self.sessions.items()` take the first entry whose key starts with
`"papers://"`. -/
def fallbackScan : List (String × Sess) → Option Sess
  | [] => none
  | (k, s) :: rest =>
      if str_startswith k "papers://" then some s else fallbackScan rest

/-- Session resolution of `get_resource`: exact lookup in `self.sessions`,
then, only for URIs starting with `"papers://"`, the fallback scan. -/
def resolveResourceSession (sessions : List (String × Sess)) (uri : String) :
    Option Sess :=
  match dictGet sessions uri with
  | some s => some s
  | none =>
      if str_startswith uri "papers://" then fallbackScan sessions else none

/-- Remote `session.read_resource`: the `contents` list of the result, or
a raised exception. -/
abbrev ReadResource := Sess → String → Except String (List String)

/-- Observable outcome of `McpChatBot.get_resource`. -/
inductive ResourceOutcome where
  | notFound
  | printedContent (s : Sess) (content : String)
  | noContent (s : Sess)
  | fetchError (s : Sess) (e : String)
deriving DecidableEq

/-- `McpChatBot.get_resource`: resolve the session (exact key, then the
`papers://` fallback), report not-found without contacting any session,
otherwise `read_resource` inside `try/except`, printing the first content
item or the no-content notice. -/
def get_resource (sessions : List (String × Sess))
    (readResource : ReadResource) (uri : String) : ResourceOutcome :=
  match resolveResourceSession sessions uri with
  | none => ResourceOutcome.notFound
  | some s =>
      match readResource s uri with
      | Except.error e => ResourceOutcome.fetchError s e
      | Except.ok contents =>
          match contents with
          | [] => ResourceOutcome.noContent s
          | c :: _ => ResourceOutcome.printedContent s c

/-- One item of a rendered prompt message whose content is a list:
either it has a `text` attribute or it is stringified. -/
inductive PromptItem where
  | withText (s : String)
  | other (repr : String)
deriving DecidableEq

/-- The `content` of the first rendered prompt message: a plain string, an
object with a `text` attribute, or a list of content items. -/
inductive PromptContent where
  | str (s : String)
  | withText (s : String)
  | itemList (l : List PromptItem)
deriving DecidableEq

/-- One message of a `get_prompt` result. -/
structure PromptMessage where
  content : PromptContent
deriving DecidableEq

/-- The result object of remote `session.get_prompt`. -/
structure GetPromptResult where
  messages : List PromptMessage
deriving DecidableEq

/-- Remote `session.get_prompt`; `Except.error` models the call raising. -/
abbrev GetPrompt := Sess → String → List (String × String) → Except String GetPromptResult

/-- The text-extraction chain of `execute_prompt`: a plain string is kept,
an object with `.text` yields that text, and a list is joined with
`" ".join(item.text if hasattr(item, "text") else str(item) ...)`. -/
def extractPromptText : PromptContent → String
  | PromptContent.str s => s
  | PromptContent.withText s => s
  | PromptContent.itemList l =>
      String.intercalate " "
        (l.map fun i =>
          match i with
          | PromptItem.withText s => s
          | PromptItem.other r => r)

/-- Observable outcome of `McpChatBot.execute_prompt`. -/
inductive PromptExecOutcome where
  | notFoundPrompt
  | errorGetting (e : String)
  | noMessages
  | ran (text : String) (result : LoopResult)
deriving DecidableEq

/-- `McpChatBot.execute_prompt`: resolve the prompt name in
`self.sessions`, render it remotely via `get_prompt`, extract the text of
the first rendered message, and feed that text to `process_query` as a
fresh query. -/
def execute_prompt (sessions : List (String × Sess)) (getPrompt : GetPrompt)
    (backend : Backend) (callTool : CallTool) (fuel : Nat)
    (pname : String) (args : List (String × String)) : PromptExecOutcome :=
  match dictGet sessions pname with
  | none => PromptExecOutcome.notFoundPrompt
  | some s =>
      match getPrompt s pname args with
      | Except.error e => PromptExecOutcome.errorGetting e
      | Except.ok res =>
          match res.messages with
          | [] => PromptExecOutcome.noMessages
          | m :: _ =>
              PromptExecOutcome.ran (extractPromptText m.content)
                (process_query backend sessions callTool fuel
                  (extractPromptText m.content))

/-- Does a response contain a `tool_use` item? -/
def containsToolUse : List RespItem → Bool
  | [] => false
  | RespItem.text _ :: rest => containsToolUse rest
  | RespItem.toolUse _ _ _ :: _ => true

/-- The print events a list of response items produces when no `tool_use`
item stops the iteration. -/
def textEvents : List RespItem → List Event
  | [] => []
  | RespItem.text s :: rest => Event.printedText s :: textEvents rest
  | RespItem.toolUse _ _ _ :: rest => textEvents rest

/-- Number of backend requests recorded in a trace. -/
def countBackend : List Event → Nat
  | [] => 0
  | Event.backendRequest :: rest => countBackend rest + 1
  | _ :: rest => countBackend rest

example :
    process_query (fun _ => [RespItem.text "hi"]) [] (fun _ _ _ => Except.ok "r") 3 "q" =
      ⟨QueryOutcome.done [⟨"user", MsgContent.str "q"⟩],
        [Event.backendRequest, Event.printedText "hi"]⟩ := by decide

/-- All routing keys one fully successful provider registers, in
registration order: tool names, then prompt names, then resource URIs. -/
def provKeys (ts : List ToolDecl) (ps : List PromptDecl) (rs : List String) :
    List String :=
  ts.map (fun t => t.name) ++ ps.map (fun p => p.name) ++ rs

/-- Dict update/lookup interaction: looking up the inserted key finds the
new value, any other key is unaffected. -/
theorem dictGet_dictInsert (d : List (String × Sess)) (a k : String) (v : Sess) :
    dictGet (dictInsert d a v) k = if a = k then some v else dictGet d k := by
  induction d with
  | nil => simp [dictInsert, dictGet]
  | cons hd tl ih =>
      obtain ⟨b, w⟩ := hd
      by_cases h1 : b = a
      · subst h1
        by_cases h2 : b = k <;> simp [dictInsert, dictGet, h2]
      · by_cases h2 : b = k
        · subst h2
          have h3 : ¬ a = b := fun h => h1 h.symm
          simp [dictInsert, dictGet, h1, h3]
        · simp [dictInsert, dictGet, h1, h2, ih]

/-- After the tool-registration loop, a key routes to this session iff it
is one of the registered tool names; other keys keep their route. -/
theorem registerTools_sessions (s : Sess) (ts : List ToolDecl) :
    ∀ (st : RegistryState) (k : String),
      dictGet (registerTools s st ts).sessions k =
        if k ∈ ts.map (fun t => t.name) then some s else dictGet st.sessions k := by
  induction ts with
  | nil => intro st k; simp [registerTools]
  | cons t ts ih =>
      intro st k
      simp only [registerTools]
      rw [ih]
      by_cases h1 : k ∈ ts.map (fun t => t.name)
      · simp [h1]
      · rw [if_neg h1, dictGet_dictInsert]
        simp only [List.map_cons, List.mem_cons]
        by_cases h2 : t.name = k
        · rw [if_pos h2, if_pos (Or.inl h2.symm)]
        · rw [if_neg h2, if_neg (fun hm => hm.elim (fun h => h2 h.symm) h1)]

/-- The tool-registration loop appends exactly the declared tools to the
flattened descriptor list. -/
theorem registerTools_tools (s : Sess) (ts : List ToolDecl) :
    ∀ st : RegistryState,
      (registerTools s st ts).available_tools = st.available_tools ++ ts := by
  induction ts with
  | nil => intro st; simp [registerTools]
  | cons t ts ih => intro st; simp [registerTools, ih]

/-- The tool-registration loop leaves the prompt descriptor list alone. -/
theorem registerTools_prompts (s : Sess) (ts : List ToolDecl) :
    ∀ st : RegistryState,
      (registerTools s st ts).available_prompts = st.available_prompts := by
  induction ts with
  | nil => intro st; simp [registerTools]
  | cons t ts ih => intro st; simp [registerTools, ih]

/-- After the prompt-registration loop, a key routes to this session iff
it is one of the registered prompt names; other keys keep their route. -/
theorem registerPrompts_sessions (s : Sess) (ps : List PromptDecl) :
    ∀ (st : RegistryState) (k : String),
      dictGet (registerPrompts s st ps).sessions k =
        if k ∈ ps.map (fun p => p.name) then some s else dictGet st.sessions k := by
  induction ps with
  | nil => intro st k; simp [registerPrompts]
  | cons p ps ih =>
      intro st k
      simp only [registerPrompts]
      rw [ih]
      by_cases h1 : k ∈ ps.map (fun p => p.name)
      · simp [h1]
      · rw [if_neg h1, dictGet_dictInsert]
        simp only [List.map_cons, List.mem_cons]
        by_cases h2 : p.name = k
        · rw [if_pos h2, if_pos (Or.inl h2.symm)]
        · rw [if_neg h2, if_neg (fun hm => hm.elim (fun h => h2 h.symm) h1)]

/-- The prompt-registration loop leaves the tool descriptor list alone. -/
theorem registerPrompts_tools (s : Sess) (ps : List PromptDecl) :
    ∀ st : RegistryState,
      (registerPrompts s st ps).available_tools = st.available_tools := by
  induction ps with
  | nil => intro st; simp [registerPrompts]
  | cons p ps ih => intro st; simp [registerPrompts, ih]

/-- After the resource-registration loop, a key routes to this session iff
it is one of the registered URIs; other keys keep their route. -/
theorem registerResources_sessions (s : Sess) (rs : List String) :
    ∀ (st : RegistryState) (k : String),
      dictGet (registerResources s st rs).sessions k =
        if k ∈ rs then some s else dictGet st.sessions k := by
  induction rs with
  | nil => intro st k; simp [registerResources]
  | cons u rs ih =>
      intro st k
      simp only [registerResources]
      rw [ih]
      by_cases h1 : k ∈ rs
      · simp [h1]
      · rw [if_neg h1, dictGet_dictInsert]
        simp only [List.mem_cons]
        by_cases h2 : u = k
        · rw [if_pos h2, if_pos (Or.inl h2.symm)]
        · rw [if_neg h2, if_neg (fun hm => hm.elim (fun h => h2 h.symm) h1)]

/-- The resource-registration loop leaves the tool descriptor list alone. -/
theorem registerResources_tools (s : Sess) (rs : List String) :
    ∀ st : RegistryState,
      (registerResources s st rs).available_tools = st.available_tools := by
  induction rs with
  | nil => intro st; simp [registerResources]
  | cons u rs ih => intro st; simp [registerResources, ih]

/-- Routing after a fully successful `load_mcp_components`: any key the
provider registered (of whichever kind) routes to its session, every
other key keeps its previous route. -/
theorem load_ok_sessions (st : RegistryState) (s : Sess) (ts : List ToolDecl)
    (ps : List PromptDecl) (rs : List String) (k : String) :
    dictGet (load_mcp_components st s
        ⟨Except.ok ts, Except.ok ps, Except.ok rs⟩).sessions k =
      if k ∈ provKeys ts ps rs then some s else dictGet st.sessions k := by
  simp only [load_mcp_components]
  rw [registerResources_sessions, registerPrompts_sessions, registerTools_sessions]
  by_cases h1 : k ∈ rs <;> by_cases h2 : k ∈ ps.map (fun p => p.name) <;>
    by_cases h3 : k ∈ ts.map (fun t => t.name) <;>
      simp [provKeys, List.mem_append, h1, h2, h3]

/-- A fully successful `load_mcp_components` appends exactly the declared
tools to the flattened descriptor list. -/
theorem load_ok_tools (st : RegistryState) (s : Sess) (ts : List ToolDecl)
    (ps : List PromptDecl) (rs : List String) :
    (load_mcp_components st s
        ⟨Except.ok ts, Except.ok ps, Except.ok rs⟩).available_tools =
      st.available_tools ++ ts := by
  simp only [load_mcp_components]
  rw [registerResources_tools, registerPrompts_tools, registerTools_tools]

/-- A provider together with its (all successful) listing results, used to
phrase claims about configurations where every listing succeeds. -/
structure OkProvider where
  sess : Sess
  tools : List ToolDecl
  prompts : List PromptDecl
  resources : List String
deriving DecidableEq

/-- The connector configuration in which each provider connects,
initializes and lists successfully. -/
def mkConfig : List OkProvider → List (String × ProviderConn)
  | [] => []
  | p :: rest =>
      ("server", ProviderConn.ok p.sess
        ⟨Except.ok p.tools, Except.ok p.prompts, Except.ok p.resources⟩) :: mkConfig rest

/-- All routing keys registered by a list of fully successful providers. -/
def allKeys : List OkProvider → List String
  | [] => []
  | p :: rest => provKeys p.tools p.prompts p.resources ++ allKeys rest

/-- Sum of the per-provider tool counts. -/
def sumTools : List OkProvider → Nat
  | [] => 0
  | p :: rest => p.tools.length + sumTools rest

/-- Occurrences of a key in a key list. -/
def keyCount (k : String) : List String → Nat
  | [] => 0
  | a :: rest => (if a = k then 1 else 0) + keyCount k rest

theorem keyCount_append (k : String) (l1 l2 : List String) :
    keyCount k (l1 ++ l2) = keyCount k l1 + keyCount k l2 := by
  induction l1 with
  | nil => simp [keyCount]
  | cons a l ih =>
      show keyCount k (a :: (l ++ l2)) = keyCount k (a :: l) + keyCount k l2
      simp only [keyCount, ih]
      omega

theorem not_mem_of_keyCount_zero {k : String} {l : List String}
    (h : keyCount k l = 0) : k ∉ l := by
  induction l with
  | nil => simp
  | cons a l ih =>
      simp only [keyCount] at h
      by_cases h2 : a = k
      · rw [if_pos h2] at h; omega
      · rw [if_neg h2] at h
        simp only [Nat.zero_add] at h
        intro hm
        rcases List.mem_cons.mp hm with h3 | h3
        · exact h2 h3.symm
        · exact ih h h3

theorem one_le_keyCount_of_mem {k : String} {l : List String} (h : k ∈ l) :
    1 ≤ keyCount k l := by
  induction l with
  | nil => cases h
  | cons a l ih =>
      rcases List.mem_cons.mp h with h2 | h2
      · simp only [keyCount, if_pos h2.symm]; omega
      · have hc := ih h2
        by_cases h3 : a = k
        · simp only [keyCount, if_pos h3]; omega
        · simp only [keyCount, if_neg h3]; omega

theorem mem_allKeys_of_mem_provider {ps : List OkProvider} {p : OkProvider}
    (hp : p ∈ ps) {k : String}
    (hk : k ∈ provKeys p.tools p.prompts p.resources) : k ∈ allKeys ps := by
  induction ps with
  | nil => cases hp
  | cons q rest ih =>
      simp only [allKeys]
      rcases List.mem_cons.mp hp with h | h
      · subst h; exact List.mem_append_left _ hk
      · exact List.mem_append_right _ (ih h)

/-- Unfolding the build over the head of a fully successful config. -/
theorem connect_mkConfig_cons (st : RegistryState) (p : OkProvider)
    (rest : List OkProvider) :
    connect_to_servers st (mkConfig (p :: rest)) =
      connect_to_servers
        (load_mcp_components st p.sess
          ⟨Except.ok p.tools, Except.ok p.prompts, Except.ok p.resources⟩)
        (mkConfig rest) := rfl

/-- A key registered by no provider of the config keeps its route across
the whole build. -/
theorem build_absent (ps : List OkProvider) :
    ∀ (st : RegistryState) (k : String), k ∉ allKeys ps →
      dictGet (connect_to_servers st (mkConfig ps)).sessions k =
        dictGet st.sessions k := by
  induction ps with
  | nil => intro st k _; rfl
  | cons q rest ih =>
      intro st k h
      rw [connect_mkConfig_cons]
      have h1 : k ∉ provKeys q.tools q.prompts q.resources := fun hm =>
        h (by simp only [allKeys]; exact List.mem_append_left _ hm)
      have h2 : k ∉ allKeys rest := fun hm =>
        h (by simp only [allKeys]; exact List.mem_append_right _ hm)
      rw [ih _ _ h2, load_ok_sessions, if_neg h1]

/-- The build over a fully successful config grows the flattened tool
list by exactly the sum of the per-provider tool counts. -/
theorem build_tools_length (ps : List OkProvider) :
    ∀ st : RegistryState,
      (connect_to_servers st (mkConfig ps)).available_tools.length =
        st.available_tools.length + sumTools ps := by
  induction ps with
  | nil => intro st; simp [mkConfig, connect_to_servers, sumTools]
  | cons q rest ih =>
      intro st
      rw [connect_mkConfig_cons, ih, load_ok_tools]
      simp only [List.length_append, sumTools]
      omega

/-- A tool name registered exactly once across the whole (fully
successful) config routes to the session of the provider declaring it. -/
theorem build_resolves (ps : List OkProvider) :
    ∀ (st : RegistryState) (p : OkProvider) (t : ToolDecl), p ∈ ps → t ∈ p.tools →
      keyCount t.name (allKeys ps) = 1 →
      dictGet (connect_to_servers st (mkConfig ps)).sessions t.name = some p.sess := by
  induction ps with
  | nil => intro st p t hp _ _; cases hp
  | cons q rest ih =>
      intro st p t hp ht huniq
      have hsplit : keyCount t.name (allKeys (q :: rest)) =
          keyCount t.name (provKeys q.tools q.prompts q.resources) +
            keyCount t.name (allKeys rest) := by
        simp only [allKeys]; exact keyCount_append _ _ _
      rw [connect_mkConfig_cons]
      rcases List.mem_cons.mp hp with hq | hq
      · subst hq
        have hmem : t.name ∈ provKeys p.tools p.prompts p.resources := by
          simp only [provKeys]
          exact List.mem_append_left _
            (List.mem_append_left _ (List.mem_map_of_mem _ ht))
        have h1 : 1 ≤ keyCount t.name (provKeys p.tools p.prompts p.resources) :=
          one_le_keyCount_of_mem hmem
        have h0 : keyCount t.name (allKeys rest) = 0 := by
          rw [hsplit] at huniq; omega
        rw [build_absent rest _ _ (not_mem_of_keyCount_zero h0),
          load_ok_sessions, if_pos hmem]
      · have hm2 : t.name ∈ allKeys rest :=
          mem_allKeys_of_mem_provider hq (by
            simp only [provKeys]
            exact List.mem_append_left _
              (List.mem_append_left _ (List.mem_map_of_mem _ ht)))
        have h2 : 1 ≤ keyCount t.name (allKeys rest) := one_le_keyCount_of_mem hm2
        have h1 : keyCount t.name (allKeys rest) = 1 := by
          rw [hsplit] at huniq; omega
        exact ih _ p t hq ht h1


theorem countBackend_append (l1 l2 : List Event) :
    countBackend (l1 ++ l2) = countBackend l1 + countBackend l2 := by
  induction l1 with
  | nil => simp [countBackend]
  | cons e l ih =>
      show countBackend (e :: (l ++ l2)) = countBackend (e :: l) + countBackend l2
      cases e <;> simp only [countBackend, ih] <;> omega

theorem countBackend_textEvents (l : List RespItem) :
    countBackend (textEvents l) = 0 := by
  induction l with
  | nil => rfl
  | cons i rest ih => cases i <;> simp [textEvents, countBackend, ih]

/-- A response round without any `tool_use` item only prints its text
items: `has_tool_use` stays as it was, the text items are accumulated
into `assistant_content`, nothing is appended to `messages`, and no
exception can escape. -/
theorem processItems_no_tool_use (sessions : List (String × Sess))
    (callTool : CallTool) (items : List RespItem) :
    ∀ (ac : List RespItem) (htu : Bool) (rms : List RoundMsg) (evs : List Event),
      containsToolUse items = false →
      processItems sessions callTool items ac htu rms evs =
        ⟨htu, ac ++ items, rms, evs ++ textEvents items, none⟩ := by
  induction items with
  | nil => intro ac htu rms evs _; simp [processItems, textEvents]
  | cons i rest ih =>
      intro ac htu rms evs h
      cases i with
      | text s =>
          simp only [containsToolUse] at h
          simp only [processItems]
          rw [ih _ _ _ _ h]
          simp [textEvents, List.append_assoc]
      | toolUse tid nm inp => simp [containsToolUse] at h

/-- Once `has_tool_use` is set, it stays set through the rest of the
content loop. -/
theorem processItems_htu_true (sessions : List (String × Sess))
    (callTool : CallTool) (items : List RespItem) :
    ∀ (ac : List RespItem) (rms : List RoundMsg) (evs : List Event),
      (processItems sessions callTool items ac true rms evs).has_tool_use = true := by
  induction items with
  | nil => intro ac rms evs; rfl
  | cons i rest ih =>
      intro ac rms evs
      cases i with
      | text s => simp only [processItems]; exact ih _ _ _
      | toolUse tid nm inp =>
          simp only [processItems]
          cases hd : dictGet sessions nm with
          | none => simp [hd]
          | some s =>
              cases hc : callTool s nm inp with
              | error e => simp [hd, hc]
              | ok r => simp only [hd, hc]; exact ih _ _ _

/-- A response round containing a `tool_use` item always leaves the
content loop with `has_tool_use = true`. -/
theorem processItems_htu_of_contains (sessions : List (String × Sess))
    (callTool : CallTool) (items : List RespItem) :
    ∀ (ac : List RespItem) (htu : Bool) (rms : List RoundMsg) (evs : List Event),
      containsToolUse items = true →
      (processItems sessions callTool items ac htu rms evs).has_tool_use = true := by
  induction items with
  | nil => intro _ _ _ _ h; simp [containsToolUse] at h
  | cons i rest ih =>
      intro ac htu rms evs h
      cases i with
      | text s =>
          simp only [containsToolUse] at h
          simp only [processItems]
          exact ih _ _ _ _ h
      | toolUse tid nm inp =>
          simp only [processItems]
          cases hd : dictGet sessions nm with
          | none => simp [hd]
          | some s =>
              cases hc : callTool s nm inp with
              | error e => simp [hd, hc]
              | ok r => simp only [hd, hc]; exact processItems_htu_true _ _ _ _ _ _

/-- One unfolding of the `while True` loop at positive fuel. -/
theorem processQueryLoop_succ (backend : Backend) (sessions : List (String × Sess))
    (callTool : CallTool) (fuel : Nat) (msgs : List ChatMsg) :
    processQueryLoop backend sessions callTool (fuel + 1) msgs =
      match processItems sessions callTool (backend msgs) [] false [] [] with
      | ⟨_, _, _, evs, some e⟩ =>
          ⟨QueryOutcome.raised e, Event.backendRequest :: evs⟩
      | ⟨true, ac, rms, evs, none⟩ =>
          let nxt := processQueryLoop backend sessions callTool fuel
            (msgs ++ rms.map (renderRoundMsg ac))
          ⟨nxt.outcome, Event.backendRequest :: evs ++ nxt.events⟩
      | ⟨false, ac, rms, evs, none⟩ =>
          ⟨QueryOutcome.done (msgs ++ rms.map (renderRoundMsg ac)),
            Event.backendRequest :: evs⟩ := rfl

/-- Every executed round of the loop records its backend request first. -/
theorem loop_events_head (backend : Backend) (sessions : List (String × Sess))
    (callTool : CallTool) (fuel : Nat) (msgs : List ChatMsg) :
    (processQueryLoop backend sessions callTool (fuel + 1) msgs).events.head? =
      some Event.backendRequest := by
  rcases h : processItems sessions callTool (backend msgs) [] false [] []
    with ⟨htu, ac, rms, evs, exc⟩
  rw [processQueryLoop_succ, h]
  cases exc <;> cases htu <;> simp

/-- Every run of the loop at positive fuel issues at least one backend
request. -/
theorem one_le_countBackend_loop (backend : Backend)
    (sessions : List (String × Sess)) (callTool : CallTool) (fuel : Nat)
    (msgs : List ChatMsg) :
    1 ≤ countBackend (processQueryLoop backend sessions callTool (fuel + 1) msgs).events := by
  rcases h : processItems sessions callTool (backend msgs) [] false [] []
    with ⟨htu, ac, rms, evs, exc⟩
  rw [processQueryLoop_succ, h]
  cases exc <;> cases htu <;> simp only [countBackend] <;> omega

/-- The explicit fallback scan equals taking the first map entry (in
iteration order) whose key has the reserved scheme. -/
theorem fallbackScan_eq_find (l : List (String × Sess)) :
    fallbackScan l =
      (l.find? fun kv => str_startswith kv.1 "papers://").map (fun kv => kv.2) := by
  induction l with
  | nil => rfl
  | cons kv rest ih =>
      obtain ⟨k, s⟩ := kv
      cases h : str_startswith k "papers://" with
      | true => simp [fallbackScan, h, List.find?_cons_of_pos]
      | false => simp [fallbackScan, h, List.find?_cons_of_neg, ih]

/-- Occurrences of a tool name in a descriptor list. -/
def toolNameCount (k : String) : List ToolDecl → Nat
  | [] => 0
  | t :: rest => (if t.name = k then 1 else 0) + toolNameCount k rest

theorem toolNameCount_append (k : String) (l1 l2 : List ToolDecl) :
    toolNameCount k (l1 ++ l2) = toolNameCount k l1 + toolNameCount k l2 := by
  induction l1 with
  | nil => simp [toolNameCount]
  | cons t l ih =>
      show toolNameCount k (t :: (l ++ l2)) = toolNameCount k (t :: l) + toolNameCount k l2
      simp only [toolNameCount, ih]
      omega

theorem one_le_toolNameCount_of_mem {t : ToolDecl} {l : List ToolDecl}
    (h : t ∈ l) {k : String} (hn : t.name = k) : 1 ≤ toolNameCount k l := by
  induction l with
  | nil => cases h
  | cons a l ih =>
      rcases List.mem_cons.mp h with h2 | h2
      · subst h2; simp only [toolNameCount, if_pos hn]; omega
      · have hc := ih h2
        by_cases h3 : a.name = k
        · simp only [toolNameCount, if_pos h3]; omega
        · simp only [toolNameCount, if_neg h3]; omega

/-- C3: with two providers connected in configuration order both
declaring a tool named `X`, the routing map resolves `X` to the
later-connected provider's session, while the flattened tool-descriptor
list is the concatenation of both declaration lists and so still contains
both declarations of `X` (at least two entries named `X`). -/
theorem last_registered_tool_wins (P1 P2 : OkProvider) (X : String)
    (t1 t2 : ToolDecl) (h1 : t1 ∈ P1.tools) (h2 : t2 ∈ P2.tools)
    (hn1 : t1.name = X) (hn2 : t2.name = X) :
    dictGet (connect_to_servers initState (mkConfig [P1, P2])).sessions X = some P2.sess
    ∧ (connect_to_servers initState (mkConfig [P1, P2])).available_tools =
        P1.tools ++ P2.tools
    ∧ 2 ≤ toolNameCount X
        (connect_to_servers initState (mkConfig [P1, P2])).available_tools := by
  have hmem : X ∈ provKeys P2.tools P2.prompts P2.resources := by
    simp only [provKeys]
    refine List.mem_append_left _ (List.mem_append_left _ ?_)
    rw [← hn2]
    exact List.mem_map_of_mem _ h2
  have htools : (connect_to_servers initState (mkConfig [P1, P2])).available_tools =
      P1.tools ++ P2.tools := by
    rw [connect_mkConfig_cons, connect_mkConfig_cons]
    show (load_mcp_components (load_mcp_components initState P1.sess _) P2.sess
        _).available_tools = _
    rw [load_ok_tools, load_ok_tools]
    simp [initState]
  refine ⟨?_, htools, ?_⟩
  · rw [connect_mkConfig_cons, connect_mkConfig_cons]
    show dictGet (load_mcp_components (load_mcp_components initState P1.sess _) P2.sess
        _).sessions X = _
    rw [load_ok_sessions, if_pos hmem]
  · rw [htools, toolNameCount_append]
    have a1 := one_le_toolNameCount_of_mem h1 hn1
    have a2 := one_le_toolNameCount_of_mem h2 hn2
    omega

theorem last_registered_tool_wins_witness :
    dictGet (connect_to_servers initState (mkConfig
      [⟨3, [⟨"X", "d1", "s1"⟩], [], []⟩, ⟨8, [⟨"X", "d2", "s2"⟩], [], []⟩])).sessions "X"
      = some 8
    ∧ (connect_to_servers initState (mkConfig
      [⟨3, [⟨"X", "d1", "s1"⟩], [], []⟩, ⟨8, [⟨"X", "d2", "s2"⟩], [], []⟩])).available_tools
      = [⟨"X", "d1", "s1"⟩] ++ [⟨"X", "d2", "s2"⟩]
    ∧ 2 ≤ toolNameCount "X" (connect_to_servers initState (mkConfig
      [⟨3, [⟨"X", "d1", "s1"⟩], [], []⟩, ⟨8, [⟨"X", "d2", "s2"⟩], [], []⟩])).available_tools :=
  last_registered_tool_wins ⟨3, [⟨"X", "d1", "s1"⟩], [], []⟩
    ⟨8, [⟨"X", "d2", "s2"⟩], [], []⟩ "X" ⟨"X", "d1", "s1"⟩ ⟨"X", "d2", "s2"⟩
    (by decide) (by decide) rfl rfl

/-- C8: over any configuration in which every provider's listing
operations succeed, the flattened tool list length equals the sum of the
per-provider tool counts, and a declared tool whose name collides with no
other registered name/URI (it is registered exactly once across the whole
build) resolves in the routing map to the session of the provider that
declared it. -/
theorem registry_completeness (ps : List OkProvider) :
    (connect_to_servers initState (mkConfig ps)).available_tools.length = sumTools ps
    ∧ (∀ p ∈ ps, ∀ t ∈ p.tools, keyCount t.name (allKeys ps) = 1 →
        dictGet (connect_to_servers initState (mkConfig ps)).sessions t.name =
          some p.sess) := by
  constructor
  · rw [build_tools_length]
    simp [initState]
  · intro p hp t ht h
    exact build_resolves ps initState p t hp ht h

theorem registry_completeness_witness :
    (connect_to_servers initState (mkConfig
      [⟨1, [⟨"a", "da", "sa"⟩], [⟨"p", "dp", []⟩], ["papers://f"]⟩,
       ⟨2, [⟨"b", "db", "sb"⟩], [], []⟩])).available_tools.length =
      sumTools [⟨1, [⟨"a", "da", "sa"⟩], [⟨"p", "dp", []⟩], ["papers://f"]⟩,
       ⟨2, [⟨"b", "db", "sb"⟩], [], []⟩]
    ∧ dictGet (connect_to_servers initState (mkConfig
      [⟨1, [⟨"a", "da", "sa"⟩], [⟨"p", "dp", []⟩], ["papers://f"]⟩,
       ⟨2, [⟨"b", "db", "sb"⟩], [], []⟩])).sessions "a" = some 1 :=
  ⟨(registry_completeness _).1,
   (registry_completeness _).2 ⟨1, [⟨"a", "da", "sa"⟩], [⟨"p", "dp", []⟩], ["papers://f"]⟩
     (by decide) ⟨"a", "da", "sa"⟩ (by decide) (by decide)⟩

/-- C10: if a provider's `list_tools` succeeded but its `list_prompts`
then raised, the tools already inserted for that provider remain in the
routing map and in the flattened tool-descriptor list after the error is
caught — registration is not atomic on error. -/
theorem nonatomic_registration_retains_tools (st : RegistryState) (s : Sess)
    (ts : List ToolDecl) (e : String) (rr : Except String (List String))
    (t : ToolDecl) (ht : t ∈ ts) :
    dictGet (load_mcp_components st s
        ⟨Except.ok ts, Except.error e, rr⟩).sessions t.name = some s
    ∧ t ∈ (load_mcp_components st s
        ⟨Except.ok ts, Except.error e, rr⟩).available_tools := by
  have hload : load_mcp_components st s ⟨Except.ok ts, Except.error e, rr⟩ =
      registerTools s st ts := rfl
  rw [hload]
  constructor
  · rw [registerTools_sessions, if_pos (List.mem_map_of_mem _ ht)]
  · rw [registerTools_tools]
    exact List.mem_append_right _ ht

theorem nonatomic_registration_retains_tools_witness :
    dictGet (load_mcp_components initState 5
      ⟨Except.ok [⟨"srch", "d", "s"⟩], Except.error "prompts down",
        Except.ok []⟩).sessions "srch" = some 5
    ∧ (⟨"srch", "d", "s"⟩ : ToolDecl) ∈ (load_mcp_components initState 5
      ⟨Except.ok [⟨"srch", "d", "s"⟩], Except.error "prompts down",
        Except.ok []⟩).available_tools :=
  nonatomic_registration_retains_tools initState 5 [⟨"srch", "d", "s"⟩]
    "prompts down" (Except.ok []) ⟨"srch", "d", "s"⟩ (by decide)

/-- C5 counterexample: a provider whose `list_tools` succeeds with one
tool and whose `list_prompts` then raises has suffered "a failure while
listing capabilities", yet after the build it has contributed one
registered, routable tool — not zero capabilities. -/
theorem listing_failure_nonzero_contribution :
    (connect_to_servers initState
      [("research", ProviderConn.ok 0
        ⟨Except.ok [⟨"search_papers", "d", "s"⟩], Except.error "net down",
          Except.ok []⟩)]).available_tools = [⟨"search_papers", "d", "s"⟩]
    ∧ dictGet (connect_to_servers initState
      [("research", ProviderConn.ok 0
        ⟨Except.ok [⟨"search_papers", "d", "s"⟩], Except.error "net down",
          Except.ok []⟩)]).sessions "search_papers" = some 0 := by
  decide

/-- C5 (amended): per-provider failures are contained and the build never
aborts — a provider whose connection or initialization fails leaves the
build exactly as if it were absent from the configuration; a provider
whose first listing (`list_tools`) raises contributes nothing; a provider
whose `list_prompts` raises retains exactly its already-registered tools
(so a listing failure after a successful `list_tools` yields a nonzero,
not zero, contribution). -/
theorem provider_failure_isolation :
    (∀ (st : RegistryState) (pre suf : List (String × ProviderConn)) (nm : String),
       connect_to_servers st (pre ++ (nm, ProviderConn.connectFail) :: suf) =
         connect_to_servers st (pre ++ suf))
    ∧ (∀ (st : RegistryState) (s : Sess) (e : String)
         (pp : Except String (List PromptDecl)) (rr : Except String (List String)),
         load_mcp_components st s ⟨Except.error e, pp, rr⟩ = st)
    ∧ (∀ (st : RegistryState) (s : Sess) (ts : List ToolDecl) (e : String)
         (rr : Except String (List String)),
         load_mcp_components st s ⟨Except.ok ts, Except.error e, rr⟩ =
           registerTools s st ts) := by
  refine ⟨?_, fun _ _ _ _ _ => rfl, fun _ _ _ _ _ => rfl⟩
  intro st pre suf nm
  induction pre generalizing st with
  | nil => rfl
  | cons hd tl ih =>
      obtain ⟨n2, c⟩ := hd
      show connect_to_servers (connect_to_server st c)
        (tl ++ (nm, ProviderConn.connectFail) :: suf) = _
      rw [ih]
      rfl

/-- C7 counterexample: the code keeps one shared `self.sessions` dict for
all capability kinds; after a second provider registers a prompt named
`X`, the tool lookup of `X` resolves to session 1 instead of the session
0 it resolved to when only the tool-declaring provider was connected. -/
theorem shared_map_cross_kind_shadowing :
    dictGet (connect_to_servers initState
      [("p1", ProviderConn.ok 0
          ⟨Except.ok [⟨"X", "d", "s"⟩], Except.ok [], Except.ok []⟩),
       ("p2", ProviderConn.ok 1
          ⟨Except.ok [], Except.ok [⟨"X", "d2", []⟩], Except.ok []⟩)]).sessions "X"
      = some 1
    ∧ dictGet (connect_to_servers initState
      [("p1", ProviderConn.ok 0
          ⟨Except.ok [⟨"X", "d", "s"⟩], Except.ok [], Except.ok []⟩)]).sessions "X"
      = some 0 := by
  decide

/-- C7 (amended): the registry maintains a single routing map shared by
tools, prompts and resources; registering a prompt or a resource whose
name/URI equals an already-registered tool name reroutes that key to the
registering session — for every prior registry state, hence in particular
it changes what a tool lookup of that name resolves to. -/
theorem later_registration_rewrites_route (st : RegistryState) (s : Sess)
    (k : String) :
    (∀ ps : List PromptDecl, k ∈ ps.map (fun p => p.name) →
       dictGet (registerPrompts s st ps).sessions k = some s)
    ∧ (∀ rs : List String, k ∈ rs →
       dictGet (registerResources s st rs).sessions k = some s) := by
  constructor
  · intro ps h
    rw [registerPrompts_sessions, if_pos h]
  · intro rs h
    rw [registerResources_sessions, if_pos h]

theorem later_registration_rewrites_route_witness :
    dictGet (registerPrompts 9 ⟨[("X", 2)], [], []⟩ [⟨"X", "d", []⟩]).sessions "X"
      = some 9
    ∧ dictGet (registerResources 9 ⟨[("X", 2)], [], []⟩ ["X"]).sessions "X"
      = some 9 :=
  ⟨(later_registration_rewrites_route ⟨[("X", 2)], [], []⟩ 9 "X").1
      [⟨"X", "d", []⟩] (by decide),
   (later_registration_rewrites_route ⟨[("X", 2)], [], []⟩ 9 "X").2
      ["X"] (by decide)⟩

/-- C4: resource routing — an exactly registered URI resolves to its
registered session; an unregistered URI beginning with the reserved
`papers://` scheme resolves to the first map entry (in iteration order)
registered under a key with that scheme; an unregistered URI of any other
scheme is reported not found, with no session contacted (the outcome is
`notFound` for every possible `read_resource` behaviour). -/
theorem resource_lookup_routing (sessions : List (String × Sess)) (uri : String) :
    (∀ s : Sess, dictGet sessions uri = some s →
       resolveResourceSession sessions uri = some s)
    ∧ (dictGet sessions uri = none → str_startswith uri "papers://" = true →
       resolveResourceSession sessions uri =
         (sessions.find? fun kv => str_startswith kv.1 "papers://").map
           (fun kv => kv.2))
    ∧ (dictGet sessions uri = none → str_startswith uri "papers://" = false →
       ∀ readResource : ReadResource,
         get_resource sessions readResource uri = ResourceOutcome.notFound) := by
  refine ⟨?_, ?_, ?_⟩
  · intro s h
    simp [resolveResourceSession, h]
  · intro h hp
    rw [← fallbackScan_eq_find]
    simp [resolveResourceSession, h, hp]
  · intro h hp rr
    simp [get_resource, resolveResourceSession, h, hp]

theorem resource_lookup_routing_witness :
    resolveResourceSession [("papers://folders", 4), ("tool1", 7)] "tool1" = some 7
    ∧ resolveResourceSession [("papers://folders", 4), ("tool1", 7)] "papers://ai" =
        (([("papers://folders", 4), ("tool1", 7)] : List (String × Sess)).find?
          fun kv => str_startswith kv.1 "papers://").map (fun kv => kv.2)
    ∧ get_resource [("papers://folders", 4), ("tool1", 7)]
        (fun _ _ => Except.ok ["c"]) "web://x" = ResourceOutcome.notFound :=
  ⟨(resource_lookup_routing _ _).1 7 (by decide),
   (resource_lookup_routing _ _).2.1 (by decide) (by decide),
   (resource_lookup_routing _ _).2.2 (by decide) (by decide) _⟩

/-- C1 counterexample: with one resolved tool whose `call_tool` raises,
`process_query` ends in the `raised` outcome — the exception is not
caught, no correlated error result is appended to the conversation
state, and the loop does not continue. -/
theorem tool_error_escapes_concrete :
    process_query (fun _ => [RespItem.toolUse "id1" "t" "arg"]) [("t", 0)]
      (fun _ _ _ => Except.error "boom") 5 "q" =
      ⟨QueryOutcome.raised "boom",
        [Event.backendRequest, Event.toolInvoked 0 "t" "arg"]⟩ := by
  decide

/-- C1 (amended): a `SessionError` raised by `call_tool` for a resolved
tool name is NOT caught inside `process_query` (there is no enclosing
`try`): it propagates, ending the run in the `raised` outcome with no
error result appended to the conversation state and no further backend
request. Stated for a round whose response is that single invocation
item, over every backend, routing map and tool behaviour. -/
theorem tool_error_propagates_from_process_query (backend : Backend)
    (sessions : List (String × Sess)) (callTool : CallTool) (fuel : Nat)
    (msgs : List ChatMsg) (tid nm inp : String) (s : Sess) (e : String)
    (hresp : backend msgs = [RespItem.toolUse tid nm inp])
    (hs : dictGet sessions nm = some s)
    (hc : callTool s nm inp = Except.error e) :
    processQueryLoop backend sessions callTool (fuel + 1) msgs =
      ⟨QueryOutcome.raised e,
        [Event.backendRequest, Event.toolInvoked s nm inp]⟩ := by
  rw [processQueryLoop_succ, hresp]
  simp [processItems, hs, hc]

theorem tool_error_propagates_witness :
    processQueryLoop (fun _ => [RespItem.toolUse "id9" "ext" "pid"]) [("ext", 2)]
      (fun _ _ _ => Except.error "conn reset") 1 [⟨"user", MsgContent.str "go"⟩] =
      ⟨QueryOutcome.raised "conn reset",
        [Event.backendRequest, Event.toolInvoked 2 "ext" "pid"]⟩ :=
  tool_error_propagates_from_process_query _ _ _ 0 _ "id9" "ext" "pid" 2
    "conn reset" rfl (by decide) rfl

/-- C2 counterexample: for a response with items [A, B, C] where A and C
resolve and B does not, the loop executes A, prints the not-found notice
for B and never attempts C — but it then issues ANOTHER backend request
(the trailing `backendRequest` in the trace) instead of returning to the
caller without further backend requests. -/
theorem early_exit_still_requests_backend :
    process_query
      (fun msgs => if msgs.length ≤ 1 then
        [RespItem.toolUse "1" "A" "x", RespItem.toolUse "2" "B" "y",
         RespItem.toolUse "3" "C" "z"]
        else [])
      [("A", 0), ("C", 1)] (fun _ _ _ => Except.ok "r") 3 "q" =
      ⟨QueryOutcome.done
          [⟨"user", MsgContent.str "q"⟩,
           ⟨"assistant", MsgContent.items
             [RespItem.toolUse "1" "A" "x", RespItem.toolUse "2" "B" "y"]⟩,
           ⟨"user", MsgContent.results [("1", "r")]⟩,
           ⟨"assistant", MsgContent.items
             [RespItem.toolUse "1" "A" "x", RespItem.toolUse "2" "B" "y"]⟩],
        [Event.backendRequest, Event.toolInvoked 0 "A" "x",
         Event.printedToolNotFound "B", Event.backendRequest]⟩ := by
  decide

/-- C2 (amended): for a model response [A, B, C] where A and C resolve
and B does not, the content loop executes A, surfaces the not-found
notice for B, and never attempts C (the round's only events are the two
shown); but since `has_tool_use` is already set, the `while` loop then
issues a FURTHER backend request (the next round's trace again begins
with `backendRequest`) rather than returning control to the caller. -/
theorem unresolved_tool_halts_items_but_loop_continues (backend : Backend)
    (sessions : List (String × Sess)) (callTool : CallTool) (fuel : Nat)
    (msgs : List ChatMsg) (idA nA iA idB nB iB idC nC iC r : String) (sA : Sess)
    (hresp : backend msgs =
      [RespItem.toolUse idA nA iA, RespItem.toolUse idB nB iB,
       RespItem.toolUse idC nC iC])
    (hA : dictGet sessions nA = some sA)
    (hB : dictGet sessions nB = none)
    (hcall : callTool sA nA iA = Except.ok r) :
    processQueryLoop backend sessions callTool (fuel + 2) msgs =
      ⟨(processQueryLoop backend sessions callTool (fuel + 1)
          (msgs ++
            [⟨"assistant", MsgContent.items
               [RespItem.toolUse idA nA iA, RespItem.toolUse idB nB iB]⟩,
             ⟨"user", MsgContent.results [(idA, r)]⟩,
             ⟨"assistant", MsgContent.items
               [RespItem.toolUse idA nA iA, RespItem.toolUse idB nB iB]⟩])).outcome,
        Event.backendRequest :: Event.toolInvoked sA nA iA ::
          Event.printedToolNotFound nB ::
          (processQueryLoop backend sessions callTool (fuel + 1)
            (msgs ++
              [⟨"assistant", MsgContent.items
                 [RespItem.toolUse idA nA iA, RespItem.toolUse idB nB iB]⟩,
               ⟨"user", MsgContent.results [(idA, r)]⟩,
               ⟨"assistant", MsgContent.items
                 [RespItem.toolUse idA nA iA, RespItem.toolUse idB nB iB]⟩])).events⟩
    ∧ (processQueryLoop backend sessions callTool (fuel + 1)
          (msgs ++
            [⟨"assistant", MsgContent.items
               [RespItem.toolUse idA nA iA, RespItem.toolUse idB nB iB]⟩,
             ⟨"user", MsgContent.results [(idA, r)]⟩,
             ⟨"assistant", MsgContent.items
               [RespItem.toolUse idA nA iA, RespItem.toolUse idB nB iB]⟩])).events.head?
        = some Event.backendRequest := by
  constructor
  · have h2 : fuel + 2 = (fuel + 1) + 1 := rfl
    rw [h2, processQueryLoop_succ, hresp]
    simp [processItems, hA, hB, hcall, renderRoundMsg, List.append_assoc]
  · exact loop_events_head _ _ _ _ _

def wSessAB : List (String × Sess) := [("alpha", 4), ("gamma", 6)]

def wBackendAB : Backend := fun _ =>
  [RespItem.toolUse "i1" "alpha" "x", RespItem.toolUse "i2" "beta" "y",
   RespItem.toolUse "i3" "gamma" "z"]

def wCallOk : CallTool := fun _ _ _ => Except.ok "res"

def wMsgsAfter : List ChatMsg :=
  [⟨"assistant", MsgContent.items
     [RespItem.toolUse "i1" "alpha" "x", RespItem.toolUse "i2" "beta" "y"]⟩,
   ⟨"user", MsgContent.results [("i1", "res")]⟩,
   ⟨"assistant", MsgContent.items
     [RespItem.toolUse "i1" "alpha" "x", RespItem.toolUse "i2" "beta" "y"]⟩]

theorem unresolved_tool_halts_items_witness :
    processQueryLoop wBackendAB wSessAB wCallOk 2 [] =
      ⟨(processQueryLoop wBackendAB wSessAB wCallOk 1 wMsgsAfter).outcome,
        Event.backendRequest :: Event.toolInvoked 4 "alpha" "x" ::
          Event.printedToolNotFound "beta" ::
          (processQueryLoop wBackendAB wSessAB wCallOk 1 wMsgsAfter).events⟩
    ∧ (processQueryLoop wBackendAB wSessAB wCallOk 1 wMsgsAfter).events.head? =
        some Event.backendRequest :=
  unresolved_tool_halts_items_but_loop_continues wBackendAB wSessAB wCallOk 0 []
    "i1" "alpha" "x" "i2" "beta" "y" "i3" "gamma" "z" "res" 4 rfl (by decide)
    (by decide) rfl

/-- C6 counterexample: a response with one invocation-request item whose
execution raises leaves the loop with a single backend request in its
trace — no further backend request is issued despite the nonempty
invocation set. -/
theorem invocation_round_without_second_request :
    process_query (fun _ => [RespItem.toolUse "7" "w" "a"]) [("w", 3)]
      (fun _ _ _ => Except.error "down") 4 "hello" =
      ⟨QueryOutcome.raised "down",
        [Event.backendRequest, Event.toolInvoked 3 "w" "a"]⟩
    ∧ countBackend (process_query (fun _ => [RespItem.toolUse "7" "w" "a"])
        [("w", 3)] (fun _ _ _ => Except.error "down") 4 "hello").events = 1 := by
  decide

/-- C6 (amended): a model response with zero invocation-request items
ends the query — outcome `done` with the messages unchanged and exactly
one backend request in the trace; a response with at least one
invocation-request item leads to a further backend request provided no
tool invocation of that round raises (an uncaught `call_tool` exception
instead aborts the query, cf. the exception-propagation theorem). -/
theorem loop_continuation_by_invocation_items (backend : Backend)
    (sessions : List (String × Sess)) (callTool : CallTool) (fuel : Nat)
    (msgs : List ChatMsg) :
    (containsToolUse (backend msgs) = false →
       (processQueryLoop backend sessions callTool (fuel + 1) msgs).outcome =
           QueryOutcome.done msgs
         ∧ countBackend
             (processQueryLoop backend sessions callTool (fuel + 1) msgs).events = 1)
    ∧ (containsToolUse (backend msgs) = true →
       (processItems sessions callTool (backend msgs) [] false [] []).raisedExc
           = none →
       2 ≤ countBackend
             (processQueryLoop backend sessions callTool (fuel + 2) msgs).events) := by
  constructor
  · intro h
    rw [processQueryLoop_succ, processItems_no_tool_use _ _ _ _ _ _ _ h]
    constructor
    · simp
    · show countBackend
        (Event.backendRequest :: ([] ++ textEvents (backend msgs))) = 1
      simp [countBackend, countBackend_textEvents]
  · intro h hexc
    rcases hr : processItems sessions callTool (backend msgs) [] false [] []
      with ⟨htu, ac, rms, evs, exc⟩
    have hh : htu = true := by
      have h3 := processItems_htu_of_contains sessions callTool (backend msgs)
        [] false [] [] h
      rw [hr] at h3
      exact h3
    have he : exc = none := by
      rw [hr] at hexc
      exact hexc
    subst hh
    subst he
    have h2eq : fuel + 2 = (fuel + 1) + 1 := rfl
    rw [h2eq, processQueryLoop_succ, hr]
    show 2 ≤ countBackend (Event.backendRequest :: (evs ++
      (processQueryLoop backend sessions callTool (fuel + 1)
        (msgs ++ rms.map (renderRoundMsg ac))).events))
    have h2 := one_le_countBackend_loop backend sessions callTool fuel
      (msgs ++ rms.map (renderRoundMsg ac))
    have hcons : countBackend (Event.backendRequest :: (evs ++
        (processQueryLoop backend sessions callTool (fuel + 1)
          (msgs ++ rms.map (renderRoundMsg ac))).events)) =
        countBackend (evs ++
          (processQueryLoop backend sessions callTool (fuel + 1)
            (msgs ++ rms.map (renderRoundMsg ac))).events) + 1 := rfl
    rw [hcons, countBackend_append]
    omega

theorem loop_continuation_witness :
    ((processQueryLoop (fun _ => [RespItem.text "bye"]) []
        (fun _ _ _ => Except.ok "r") 1 [⟨"user", MsgContent.str "hi"⟩]).outcome =
          QueryOutcome.done [⟨"user", MsgContent.str "hi"⟩]
      ∧ countBackend (processQueryLoop (fun _ => [RespItem.text "bye"]) []
          (fun _ _ _ => Except.ok "r") 1 [⟨"user", MsgContent.str "hi"⟩]).events = 1)
    ∧ 2 ≤ countBackend (processQueryLoop
        (fun m => if m.length ≤ 1 then [RespItem.toolUse "1" "tt" "i"] else [])
        [("tt", 0)] (fun _ _ _ => Except.ok "ok") 3
        [⟨"user", MsgContent.str "hi"⟩]).events :=
  ⟨(loop_continuation_by_invocation_items _ _ _ 0 _).1 rfl,
   (loop_continuation_by_invocation_items _ _ _ 1 _).2 (by decide) (by decide)⟩

/-- C9: executing a named prompt resolves the name through the routing
map, renders it remotely via `get_prompt`, and feeds the rendered text of
the first returned message into the conversation loop as a fresh query
whose initial conversation state is exactly the single user message
carrying that text. Each `process_query` run owns its local `messages`
value, so the prompt run neither reads nor alters the conversation state
of any other query. -/
theorem execute_prompt_fresh_conversation (sessions : List (String × Sess))
    (getPrompt : GetPrompt) (backend : Backend) (callTool : CallTool)
    (fuel : Nat) (pname : String) (args : List (String × String)) (s : Sess)
    (res : GetPromptResult) (m : PromptMessage) (rest : List PromptMessage)
    (hs : dictGet sessions pname = some s)
    (hg : getPrompt s pname args = Except.ok res)
    (hm : res.messages = m :: rest) :
    execute_prompt sessions getPrompt backend callTool fuel pname args =
      PromptExecOutcome.ran (extractPromptText m.content)
        (processQueryLoop backend sessions callTool fuel
          [⟨"user", MsgContent.str (extractPromptText m.content)⟩]) := by
  simp [execute_prompt, hs, hg, hm, process_query]

theorem execute_prompt_fresh_conversation_witness :
    execute_prompt [("gsp", 1)]
      (fun _ _ _ => Except.ok ⟨[⟨PromptContent.str "find papers"⟩]⟩)
      (fun _ => []) (fun _ _ _ => Except.ok "r") 2 "gsp" [("topic", "ai")] =
      PromptExecOutcome.ran "find papers"
        (processQueryLoop (fun _ => []) [("gsp", 1)] (fun _ _ _ => Except.ok "r") 2
          [⟨"user", MsgContent.str "find papers"⟩]) :=
  execute_prompt_fresh_conversation [("gsp", 1)]
    (fun _ _ _ => Except.ok ⟨[⟨PromptContent.str "find papers"⟩]⟩)
    (fun _ => []) (fun _ _ _ => Except.ok "r") 2 "gsp" [("topic", "ai")] 1
    ⟨[⟨PromptContent.str "find papers"⟩]⟩ ⟨PromptContent.str "find papers"⟩ []
    (by decide) rfl rfl
